import Mathlib

/-!
Verification of the occurrence-store subsystem of the obsidian-occurrences
repository.  The TypeScript sources are shallowly embedded: JavaScript `Map`
and `Set` become insertion-ordered association lists, JavaScript `Date`
becomes an `Option DateRec` (with `none` playing the role of an Invalid Date,
whose `getTime()` is `NaN`), and the host services that live outside the
repository (`new Date(string)` parsing, `convertListToLinks`, `parseLink`)
are passed in as explicit function parameters so every theorem holds for any
host behaviour.
-/

namespace ObsidianOcc

/-- A typed reference, `{ type, target, displayText? }` in `src/types`. -/
structure Link where
  type : String
  target : String
  displayText : Option String
deriving DecidableEq, Repr

/-- The observable state of a valid JavaScript `Date`: its epoch-millisecond
value (`getTime()`) together with the local calendar fields the source reads
(`getFullYear()`, `getMonth() + 1`, `getDate()`, `getHours()`, `getMinutes()`,
`getSeconds()`). -/
structure DateRec where
  time : Int
  year : Nat
  month : Nat
  day : Nat
  hour : Nat
  minute : Nat
  second : Nat
deriving DecidableEq, Repr

/-- A JavaScript `Date`: `none` is an Invalid Date (the invalid sentinel,
`getTime() = NaN`). -/
abbrev JSDate := Option DateRec

/-- `getTime()` : `none` models `NaN`. -/
def jsTime (d : JSDate) : Option Int := d.map DateRec.time

/-- `a.getTime() !== b.getTime()` — in JavaScript `NaN !== NaN` evaluates to
`true`, so any comparison involving an invalid date reports inequality. -/
def neqTime (a b : JSDate) : Bool :=
  match jsTime a, jsTime b with
  | some x, some y => decide (x ≠ y)
  | _, _ => true

/-- The `tags` frontmatter field may be absent, a single string, or a list. -/
inductive TagsField where
  | missing
  | one (s : String)
  | many (l : List String)
deriving DecidableEq, Repr

/-- The frontmatter block of a managed file, as destructured by
`processFile` / `hasRelevantChanges`.  Extra key-value fields are kept in an
ordered list; their values are restricted to strings, for which the source's
`!==` comparison is value equality. -/
structure Frontmatter where
  occurrence_occurred_at : Option String := none
  occurrence_to_process : Option Bool := none
  occurrence_location : Option String := none
  occurrence_participants : Option (List String) := none
  occurrence_intents : Option (List String) := none
  tags : TagsField := .missing
  extra : List (String × String) := []
deriving DecidableEq, Repr

/-- Host functions the repository consumes but does not define: the
platform's date parser behind `new Date(string)` and the link utilities
`convertListToLinks` / `parseLink` (imported from a module that is not part
of the sources).  All theorems are stated for an arbitrary `HostFns`. -/
structure HostFns where
  parseDate : String → Option DateRec
  convertListToLinks : Option (List String) → List Link
  parseLink : String → Link

/-- `new Date(v)` for `v` the raw occurred-at field: absent or unparsable
input yields an Invalid Date. -/
def jsNewDate (fns : HostFns) (v : Option String) : JSDate :=
  match v with
  | none => none
  | some s => fns.parseDate s

/-- JavaScript truthiness of an optional string (`undefined` and `""` are
falsy). -/
def jsTruthyStr (v : Option String) : Bool :=
  match v with
  | none => false
  | some s => decide (s ≠ "")

/-- JavaScript truthiness of an optional boolean flag. -/
def jsTruthyBool (v : Option Bool) : Bool := v.getD false

/-- `properties` of an occurrence (`OccurrenceProperties` in `src/types`). -/
structure OccurrenceProperties where
  occurredAt : JSDate
  toProcess : Bool
  participants : List Link
  intents : List Link
  location : Option Link
  tags : List String
  extra : List (String × String)
deriving DecidableEq, Repr

/-- An `OccurrenceObject`: `path` is the id/map key, `title` the date-prefix
stripped base name.  The constant `class: "Occurrence"` field and the raw
file handle are omitted (the latter is represented by `path`). -/
structure OccurrenceObject where
  path : String
  title : String
  properties : OccurrenceProperties
deriving DecidableEq, Repr

/-! ### Insertion-ordered maps and sets (JavaScript `Map` / `Set`) -/

/-- `Map.get` — first binding of the key. -/
def lookupAssoc {β : Type} : List (String × β) → String → Option β
  | [], _ => none
  | (k, v) :: t, key => if k = key then some v else lookupAssoc t key

/-- `Map.set` — replace in place if present (keeping the original insertion
position), append otherwise. -/
def setAssoc {β : Type} : List (String × β) → String → β → List (String × β)
  | [], key, v => [(key, v)]
  | (k, w) :: t, key, v =>
      if k = key then (key, v) :: t else (k, w) :: setAssoc t key v

/-- `Map.delete`. -/
def deleteAssoc {β : Type} (m : List (String × β)) (key : String) :
    List (String × β) :=
  m.filter (fun kv => kv.1 ≠ key)

/-- `Set.add` — a no-op when the element is present, append otherwise. -/
def setAdd (s : List String) (x : String) : List String :=
  if s.contains x then s else s ++ [x]

/-- `Set.delete`. -/
def setDelete (s : List String) (x : String) : List String :=
  s.filter (fun y => y ≠ x)

/-! ### Record model helpers (`occurrenceStore/utils`) -/

/-- `normalizeTags` (tagUtils): falsy input (absent or `""`) gives `[]`, an
array is returned as is, a non-empty string is wrapped. -/
def normalizeTags : TagsField → List String
  | .missing => []
  | .one s => if s = "" then [] else [s]
  | .many l => l

/-- `linksArrayEqual` — index-wise comparison of `type`, `target`,
`displayText` (both arrays are always defined in the store, so the
undefined-handling prologue of the source is vacuous here). -/
def linksArrayEqual (a b : List Link) : Bool :=
  a.length == b.length &&
    (a.zip b).all fun p =>
      p.1.type == p.2.type && p.1.target == p.2.target &&
        p.1.displayText == p.2.displayText

/-- `linkEqual` — `null`-aware single-link comparison. -/
def linkEqual (a b : Option Link) : Bool :=
  match a, b with
  | none, none => true
  | some x, some y =>
      x.type == y.type && x.target == y.target && x.displayText == y.displayText
  | _, _ => false

/-- `arraysEqual` — index-wise string array comparison. -/
def arraysEqual (a b : List String) : Bool :=
  a.length == b.length && (a.zip b).all fun p => p.1 == p.2

/-! ### Canonical naming (`dateUtils`): `removeDatePrefix` / `applyDatePrefix`
specialised to `OCCURRENCE_DATE_FORMAT = "YYYY-MM-DD HHmm"`. -/

/-- One token of the compiled date-prefix regex. -/
inductive PatTok where
  | digit
  | lit (c : Char)
deriving DecidableEq, Repr

/-- The regex `removeDatePrefix` compiles from `"YYYY-MM-DD HHmm"`, namely
`\d{4}-\d{2}-\d{2} \d{2}\d{2}`, as a token list. -/
def occurrencePattern : List PatTok :=
  List.replicate 4 .digit ++ [.lit '-'] ++ List.replicate 2 .digit ++
    [.lit '-'] ++ List.replicate 2 .digit ++ [.lit ' '] ++
    List.replicate 4 .digit

/-- Try to match the token list at the head of the character list, returning
the remainder on success. -/
def matchToks : List PatTok → List Char → Option (List Char)
  | [], rest => some rest
  | _ :: _, [] => none
  | .digit :: ps, c :: cs => if c.isDigit then matchToks ps cs else none
  | .lit d :: ps, c :: cs => if c = d then matchToks ps cs else none

/-- `String.replace(regex, "")` for a non-global regex: delete the leftmost
match, if any. -/
def removeFirstMatch (ps : List PatTok) : List Char → List Char
  | [] =>
      match matchToks ps [] with
      | some rest => rest
      | none => []
  | c :: cs =>
      match matchToks ps (c :: cs) with
      | some rest => rest
      | none => c :: removeFirstMatch ps cs

/-- The characters `String.prototype.trim` (and `\s`) removes: ECMAScript
WhiteSpace — TAB, VT, FF, SP, NBSP, ZWNBSP and the Unicode space-separator
category (U+1680, U+2000..U+200A, U+202F, U+205F, U+3000) — together with
the LineTerminators LF, CR, LS, PS. -/
def isJsSpace (c : Char) : Bool :=
  c = ' ' || c = '\t' || c = '\n' || c = '\r' || c = '\u000B' ||
    c = '\u000C' || c = '\u00A0' || c = '\u1680' ||
    (0x2000 ≤ c.val && c.val ≤ 0x200A) || c = '\u2028' || c = '\u2029' ||
    c = '\u202F' || c = '\u205F' || c = '\u3000' || c = '\uFEFF'

/-- `String.prototype.trim`. -/
def trimChars (l : List Char) : List Char :=
  ((l.dropWhile isJsSpace).reverse.dropWhile isJsSpace).reverse

/-- `removeDatePrefix(basename, OCCURRENCE_DATE_FORMAT)`: delete the first
occurrence of the compiled date pattern, then trim. -/
def removeDatePrefix (basename : String) : String :=
  String.mk (trimChars (removeFirstMatch occurrencePattern basename.data))

/-- `n.toString()` for a natural number: decimal digit characters. -/
def digitChar (n : Nat) : Char := Char.ofNat (48 + n % 10)

/-- Decimal rendering, fuel-recursive so that it evaluates by kernel
reduction; `natToChars` supplies ample fuel. -/
def natToCharsAux : Nat → Nat → List Char
  | 0, _ => []
  | fuel + 1, n =>
      if n < 10 then [digitChar n]
      else natToCharsAux fuel (n / 10) ++ [digitChar n]

/-- Decimal rendering of a natural number (`Number.prototype.toString`). -/
def natToChars (n : Nat) : List Char := natToCharsAux (n + 1) n

/-- `String(n).padStart(2, "0")`. -/
def pad2 (n : Nat) : List Char :=
  if (natToChars n).length < 2 then '0' :: natToChars n else natToChars n

/-- `applyDatePrefix(title, date, OCCURRENCE_DATE_FORMAT)`: format the date
as `YYYY-MM-DD HHmm` (year via `toString`, the other fields via
`padStart(2, "0")`; `month` is already the 1-based `getMonth() + 1`) and
prepend it, separated by a space. -/
def applyDatePrefix (title : String) (d : DateRec) : String :=
  String.mk
    (natToChars d.year ++ '-' :: pad2 d.month ++ '-' :: pad2 d.day ++
      ' ' :: (pad2 d.hour ++ pad2 d.minute) ++ ' ' :: title.data)

/-- `applyDatePrefix` applied to a possibly invalid `Date`: every calendar
getter of an Invalid Date is `NaN` and stringifies to `"NaN"`. -/
def applyDatePrefixJS (title : String) (d : JSDate) : String :=
  match d with
  | some dr => applyDatePrefix title dr
  | none => String.mk (("NaN-NaN-NaN NaNNaN ").data ++ title.data)

/-! ### Store state, events, and tag index (`OccurrenceSearch.updateTagIndex`) -/

/-- Lifecycle events emitted through the notification bus. -/
inductive Event where
  | itemAdded (item : OccurrenceObject)
  | itemUpdated (item : OccurrenceObject)
  | itemRemoved (path : String)
  | loaded
deriving DecidableEq, Repr

/-- The mutable state of an `OccurrenceStore`: the `id → record` map, the
search service's tag index (`tag → set of paths`), and the single-flight
loading flag. -/
structure StoreState where
  items : List (String × OccurrenceObject) := []
  tagIndex : List (String × List String) := []
  isLoading : Bool := false
deriving DecidableEq, Repr

/-- What `updateIndexes` is called with. -/
inductive IndexAction where
  | add
  | remove
deriving DecidableEq, Repr

/-- `OccurrenceSearch.updateTagIndex`: for each tag of the occurrence, create
the tag's set if missing (also on removal), then add or delete the
occurrence's path. -/
def updateTagIndex (ti : List (String × List String))
    (occurrence : OccurrenceObject) (action : IndexAction) :
    List (String × List String) :=
  occurrence.properties.tags.foldl
    (fun ti tag =>
      let ti := if (lookupAssoc ti tag).isSome then ti else setAssoc ti tag []
      let tagSet := (lookupAssoc ti tag).getD []
      let tagSet :=
        match action with
        | .add => setAdd tagSet occurrence.path
        | .remove => setDelete tagSet occurrence.path
      setAssoc ti tag tagSet)
    ti

/-- `OccurrenceSearch.updateIndexes` delegates to the tag index. -/
def updateIndexes (ti : List (String × List String))
    (occurrence : OccurrenceObject) (action : IndexAction) :
    List (String × List String) :=
  updateTagIndex ti occurrence action

namespace StoreOperations

/-- `StoreOperations.addOccurrence`: set the map entry, index the item, emit
`item-added`. -/
def addOccurrence (st : StoreState) (item : OccurrenceObject) :
    StoreState × List Event :=
  ({ st with
      items := setAssoc st.items item.path item
      tagIndex := updateIndexes st.tagIndex item .add },
    [.itemAdded item])

/-- `StoreOperations.updateOccurrence` as in the first revision of
`storeOperations.ts` (lines 28-34), which is also the discipline of the
`metadataCache` changed handler (lines 309-313): the index removal is
performed with the NEW item (its comment says "Remove old version"), then the
map entry is set and the new item indexed. -/
def updateOccurrence (st : StoreState) (item : OccurrenceObject) :
    StoreState × List Event :=
  let ti := updateIndexes st.tagIndex item .remove
  let items := setAssoc st.items item.path item
  let ti := updateIndexes ti item .add
  ({ st with items := items, tagIndex := ti }, [.itemUpdated item])

/-- `StoreOperations.removeOccurrenceFromPath` (lines 39-46): un-index the
item when present, delete the map entry, and emit `item-removed`
unconditionally. -/
def removeOccurrenceFromPath (st : StoreState) (path : String) :
    StoreState × List Event :=
  let ti :=
    match lookupAssoc st.items path with
    | some item => updateIndexes st.tagIndex item .remove
    | none => st.tagIndex
  ({ st with items := deleteAssoc st.items path, tagIndex := ti },
    [.itemRemoved path])

end StoreOperations

/-! ### Record parsing and change detection (`OccurrenceStore`) -/

namespace OccurrenceStore

/-- `OccurrenceStore.isRelevantFile`: the managed-path predicate. -/
def isRelevantFile (filePath : String) : Bool :=
  filePath.startsWith "Occurrences/" && filePath.endsWith ".md"

/-- Parse the raw location field: `occurrence_location ? parseLink(...) :
null` (empty string is falsy). -/
def parseLocation (fns : HostFns) (v : Option String) : Option Link :=
  match v with
  | some s => if s = "" then none else some (fns.parseLink s)
  | none => none

/-- The `toProcess` flag as computed identically in `processFile` and
`hasRelevantChanges`:
`!occurred_at || isNaN(new Date(occurred_at).getTime()) || to_process`. -/
def computeToProcess (fns : HostFns) (fm : Frontmatter) : Bool :=
  !jsTruthyStr fm.occurrence_occurred_at ||
    (jsNewDate fns fm.occurrence_occurred_at).isNone ||
    jsTruthyBool fm.occurrence_to_process

/-- `OccurrenceStore.processFile`: parse a managed file's cached frontmatter
(`fileCache?.frontmatter ?? {}`) into an `OccurrenceObject`.  Total — it
never throws, whatever the raw input. -/
def processFile (fns : HostFns) (cache : Option Frontmatter)
    (path basename : String) : OccurrenceObject :=
  let fm := cache.getD {}
  { path := path
    title := removeDatePrefix basename
    properties :=
      { occurredAt := jsNewDate fns fm.occurrence_occurred_at
        toProcess := computeToProcess fns fm
        participants := fns.convertListToLinks fm.occurrence_participants
        intents := fns.convertListToLinks fm.occurrence_intents
        location := parseLocation fns fm.occurrence_location
        tags := normalizeTags fm.tags
        extra := fm.extra } }

/-- The final loop of `hasRelevantChanges`: every frontmatter key other than
the six destructured ones is compared with `!==` against the stored
properties (a key missing from the stored properties compares unequal). -/
def extraPropsChanged (fmExtra propsExtra : List (String × String)) : Bool :=
  fmExtra.any fun kv =>
    match lookupAssoc propsExtra kv.1 with
    | some w => decide (kv.2 ≠ w)
    | none => true

/-- `OccurrenceStore.hasRelevantChanges`: `false` without a cached
frontmatter, `true` for a file with no stored record, otherwise a field-wise
comparison of the re-parsed values against the stored record (note the
`getTime() !== getTime()` timestamp comparison). -/
def hasRelevantChanges (fns : HostFns) (cache : Option Frontmatter)
    (items : List (String × OccurrenceObject)) (path : String) : Bool :=
  match cache with
  | none => false
  | some fm =>
    match lookupAssoc items path with
    | none => true
    | some cachedItem =>
      let newOccurredAt := jsNewDate fns fm.occurrence_occurred_at
      let newToProcess := computeToProcess fns fm
      let newParticipants := fns.convertListToLinks fm.occurrence_participants
      let newIntents := fns.convertListToLinks fm.occurrence_intents
      let newLocation := parseLocation fns fm.occurrence_location
      let newTags := normalizeTags fm.tags
      if neqTime cachedItem.properties.occurredAt newOccurredAt ||
          cachedItem.properties.toProcess != newToProcess ||
          !linksArrayEqual cachedItem.properties.participants newParticipants ||
          !linksArrayEqual cachedItem.properties.intents newIntents ||
          !linkEqual cachedItem.properties.location newLocation ||
          !arraysEqual cachedItem.properties.tags newTags then
        true
      else
        extraPropsChanged fm.extra cachedItem.properties.extra

/-- `OccurrenceStore.remove`: a missing id is logged and nothing else
happens; otherwise un-index, delete, and emit `item-removed`. -/
def remove (st : StoreState) (path : String) : StoreState × List Event :=
  match lookupAssoc st.items path with
  | none => (st, [])
  | some item =>
      ({ st with
          tagIndex := updateIndexes st.tagIndex item .remove
          items := deleteAssoc st.items path },
        [.itemRemoved path])

/-- `OccurrenceStore.isLoaded`: `!this.isLoading && this.items.size > 0`. -/
def isLoaded (st : StoreState) : Bool :=
  !st.isLoading && decide (0 < st.items.length)

/-- A vault file as the loader sees it: path, base name, and the metadata
cache's frontmatter for it (if materialised). -/
structure FileRec where
  path : String
  basename : String
  cache : Option Frontmatter
deriving DecidableEq, Repr

/-- `OccurrenceStore.load`: single-flight no-op while a load is in flight;
otherwise clear the map and indexes, parse every managed file, populate the
map and indexes, reset the flag, and emit `loaded`. -/
def load (fns : HostFns) (st : StoreState) (vault : List FileRec) :
    StoreState × List Event :=
  if st.isLoading then (st, [])
  else
    let files := vault.filter fun f => isRelevantFile f.path
    let st1 :=
      files.foldl
        (fun acc f =>
          let item := processFile fns f.cache f.path f.basename
          { acc with
              items := setAssoc acc.items f.path item
              tagIndex := updateIndexes acc.tagIndex item .add })
        { st with items := [], tagIndex := [] }
    ({ st1 with isLoading := false }, [.loaded])

/-- `updates.properties` in `update(file, updates)`, reduced to the fields
the rename/conflict logic reads; the merged write-back of the remaining
fields happens behind the `writeBack` parameter of `update`.  An
`occurredAt` that is present is a `Date` object (truthy even when
Invalid). -/
structure PartialProps where
  occurredAt : Option JSDate := none

/-- `Partial<OccurrenceObject>` as consumed by `update`. -/
structure PartialUpdates where
  title : Option String := none
  properties : Option PartialProps := none

/-- The named failure conditions `update` can throw. -/
inductive UpdateErr where
  | notFound
  | alreadyExists
  | processFailed
deriving DecidableEq, Repr

/-- `updates.title || current.title` (empty string is falsy). -/
def jsOrString (v : Option String) (d : String) : String :=
  match v with
  | none => d
  | some s => if s = "" then d else s

/-- `updates.properties?.occurredAt || current.properties.occurredAt`: a
present `Date` object is truthy even when Invalid. -/
def effectiveOccurredAt (cur : OccurrenceObject) (updates : PartialUpdates) :
    JSDate :=
  match updates.properties with
  | some p =>
      match p.occurredAt with
      | some d => d
      | none => cur.properties.occurredAt
  | none => cur.properties.occurredAt

/-- `updates.title || updates.properties?.occurredAt` — does the update ask
for a possible rename? -/
def renameRequested (updates : PartialUpdates) : Bool :=
  jsTruthyStr updates.title ||
    (match updates.properties with
      | some p => p.occurredAt.isSome
      | none => false)

/-- The canonical path `update` derives from the effective title and
timestamp: `Occurrences/${applyDatePrefix(newTitle, newOccurredAt)}.md`. -/
def effectiveNewPath (cur : OccurrenceObject) (updates : PartialUpdates) :
    String :=
  "Occurrences/" ++
    applyDatePrefixJS (jsOrString updates.title cur.title)
      (effectiveOccurredAt cur updates) ++ ".md"

/-- `OccurrenceStore.update(file, updates)`.  The vault is the list of
existing file paths.  The steps that call back into the host after the
conflict check — `processFrontMatter` (modelled by `writeBack` on the vault)
and the re-parse of the written file (modelled by `reparse`) — are
parameters, so the theorems hold for any host behaviour.  Control flow: a
missing id throws not-found; if a rename is requested, a derived path that
differs from the current one and already exists in the vault throws
already-exists before any rename or write; otherwise the file is renamed if
needed, the frontmatter written back, the record re-parsed and stored. -/
def update (writeBack : List String → List String)
    (reparse : Option OccurrenceObject) (st : StoreState)
    (vault : List String) (filePath : String) (updates : PartialUpdates) :
    Except UpdateErr OccurrenceObject × StoreState × List String :=
  match lookupAssoc st.items filePath with
  | none => (.error .notFound, st, vault)
  | some cur =>
    let newPath := effectiveNewPath cur updates
    if renameRequested updates ∧ newPath ≠ filePath ∧ vault.contains newPath
    then (.error .alreadyExists, st, vault)
    else
      let doRename := renameRequested updates ∧ newPath ≠ filePath
      let vault1 :=
        if doRename then vault.map fun p => if p = filePath then newPath else p
        else vault
      let filePath1 := if doRename then newPath else filePath
      let vault2 := writeBack vault1
      match reparse with
      | some item =>
          (.ok item, { st with items := setAssoc st.items filePath1 item },
            vault2)
      | none => (.error .processFailed, st, vault2)

end OccurrenceStore

/-! ### Search (`OccurrenceSearch.search`) -/

/-- `"asc" | "desc"`. -/
inductive SortOrder where
  | asc
  | desc
deriving DecidableEq, Repr

/-- `SearchOptions` — absent fields are `none`. -/
structure SearchOptions where
  query : Option String := none
  tags : Option (List String) := none
  linksTo : Option String := none
  toProcess : Option Bool := none
  sortOrder : Option SortOrder := none
  limit : Option Nat := none
  offset : Option Nat := none
deriving DecidableEq, Repr

/-- `SearchResult`. -/
structure SearchResult where
  items : List OccurrenceObject
  total : Nat
  hasMore : Bool
deriving DecidableEq, Repr

/-- `v || d` for the numeric pagination options: `undefined` and the falsy
`0` are both replaced by the default. -/
def jsOrNat (v : Option Nat) (d : Nat) : Nat :=
  match v with
  | none => d
  | some n => if n = 0 then d else n

/-- `arr.slice(s, e)` for natural bounds. -/
def jsSlice {α : Type} (l : List α) (s e : Nat) : List α :=
  (l.drop s).take (e - s)

namespace OccurrenceSearch

/-- The host's `metadataCache.resolvedLinks`, restricted to the targets with
a positive link count per source path. -/
abbrev ResolvedLinks := List (String × List String)

/-- `searchByReverseLinks`: the paths of stored occurrences whose resolved
links contain the target. -/
def searchByReverseLinks (resolved : ResolvedLinks)
    (items : List (String × OccurrenceObject)) (targetPath : String) :
    List String :=
  (items.map Prod.fst).filter fun p =>
    match lookupAssoc resolved p with
    | some targets => targets.contains targetPath
    | none => false

/-- `searchByTags`: union (OR) of the tag index sets of the given tags. -/
def searchByTags (tagIndex : List (String × List String))
    (tags : List String) : List String :=
  tags.foldl
    (fun acc tag => ((lookupAssoc tagIndex tag).getD []).foldl setAdd acc)
    []

/-- One row of the source's Levenshtein DP matrix, from the previous row:
`row[0] = j` and `row[i] = min(row[i-1]+1, prev[i]+1, prev[i-1]+cost)`. -/
def levRowGo (bj : Char) : List Char → List Nat → Nat → List Nat
  | [], _, _ => []
  | _ :: _, [], _ => []
  | ai :: arest, pdiag :: ptail, left =>
      let pup := ptail.headD 0
      let cost := if ai = bj then 0 else 1
      let cur := min (min (left + 1) (pup + 1)) (pdiag + cost)
      cur :: levRowGo bj arest ptail cur

/-- `levenshteinDistance`: the classic DP matrix of the source, computed row
by row; the answer is `matrix[b.length][a.length]`. -/
def levenshteinDistance (a b : List Char) : Nat :=
  if a.length = 0 then b.length
  else if b.length = 0 then a.length
  else
    let firstRow := List.range (a.length + 1)
    let lastRow := b.foldl (fun prev bj => (prev.headD 0 + 1) :: levRowGo bj a prev (prev.headD 0 + 1)) firstRow
    lastRow.getLastD 0

/-- Is `needle` a contiguous substring of `hay` (`String.includes`)? -/
def containsSub (needle hay : List Char) : Bool :=
  match hay with
  | [] => decide (needle = [])
  | _ :: t => needle.isPrefixOf hay || containsSub needle t

/-- `title.split(/\s+/)`: split on maximal whitespace runs (leading or
trailing runs contribute empty pieces, as in JavaScript). -/
def jsSplitWs : List Char → List (List Char)
  | [] => [[]]
  | c :: cs =>
      if isJsSpace c then [] :: jsSplitWs (cs.dropWhile isJsSpace)
      else
        match jsSplitWs cs with
        | [] => [[c]]
        | w :: ws => (c :: w) :: ws
termination_by l => l.length
decreasing_by
  · exact Nat.lt_succ_of_le (List.dropWhile_sublist isJsSpace).length_le
  · simp

/-- `matchesTitle`: case-insensitive substring match, else any title word
starts with the query or is within edit distance 2 of it. -/
def matchesTitle (title query : String) : Bool :=
  let titleLower := title.toLower
  if containsSub query.data titleLower.data then true
  else
    (jsSplitWs titleLower.data).any fun word =>
      query.data.isPrefixOf word || levenshteinDistance word query.data ≤ 2

/-- `searchByTitle`: the paths whose title matches the lower-cased query. -/
def searchByTitle (items : List (String × OccurrenceObject)) (query : String) :
    List String :=
  (items.filter fun kv => matchesTitle kv.2.title query.toLower).map Prod.fst

/-- The sort comparator: `a.time - b.time`, negated for `desc`; a comparator
result involving an Invalid Date is `NaN`, which `Array.prototype.sort`
treats as `+0`. -/
def compareOccurrences (so : SortOrder) (a b : OccurrenceObject) : Int :=
  let c : Int :=
    match jsTime a.properties.occurredAt, jsTime b.properties.occurredAt with
    | some x, some y => x - y
    | _, _ => 0
  match so with
  | .desc => -c
  | .asc => c

/-- Stable insertion: place `x` before the first element it does not have to
follow (comparator `≤ 0`), so earlier-listed elements stay first on ties —
the stability `Array.prototype.sort` guarantees. -/
def stableInsert (cmp : OccurrenceObject → OccurrenceObject → Int)
    (x : OccurrenceObject) : List OccurrenceObject → List OccurrenceObject
  | [] => [x]
  | y :: ys => if cmp x y ≤ 0 then x :: y :: ys else y :: stableInsert cmp x ys

/-- Stable sort by the comparator (insertion sort; any stable sort agrees
with `Array.prototype.sort` for this consistent comparator). -/
def stableSort (cmp : OccurrenceObject → OccurrenceObject → Int) :
    List OccurrenceObject → List OccurrenceObject
  | [] => []
  | x :: xs => stableInsert cmp x (stableSort cmp xs)

/-- `finalResults.sort(...)` with the `options.sortOrder || "desc"`
default. -/
def sortOccurrences (so : Option SortOrder) (l : List OccurrenceObject) :
    List OccurrenceObject :=
  stableSort (compareOccurrences (so.getD .desc)) l

/-- The filtering pipeline of `search`, up to and including the `toProcess`
filter: candidate paths in map insertion order, narrowed by the `linksTo`,
tag, and title filters, hydrated to objects, then filtered by the processing
flag. -/
def filteredResults (resolved : ResolvedLinks) (st : StoreState)
    (options : SearchOptions) : List OccurrenceObject :=
  let candidates := st.items.map Prod.fst
  let candidates :=
    match options.linksTo with
    | some t =>
        if t = "" then candidates
        else candidates.filter fun p =>
          (searchByReverseLinks resolved st.items t).contains p
    | none => candidates
  let candidates :=
    match options.tags with
    | some ts =>
        if 0 < ts.length then
          candidates.filter fun p => (searchByTags st.tagIndex ts).contains p
        else candidates
    | none => candidates
  let candidates :=
    match options.query with
    | some q =>
        if q = "" then candidates
        else candidates.filter fun p => (searchByTitle st.items q).contains p
    | none => candidates
  let results := candidates.filterMap fun p => lookupAssoc st.items p
  match options.toProcess with
  | some tp => results.filter fun item => item.properties.toProcess == tp
  | none => results

/-- `OccurrenceSearch.search`: filter, sort (desc by default), then paginate
with `offset || 0` and `limit || 100`, `slice(offset, offset + limit)`,
`hasMore = offset + limit < total`. -/
def search (resolved : ResolvedLinks) (st : StoreState)
    (options : SearchOptions) : SearchResult :=
  let finalResults := filteredResults resolved st options
  let sorted := sortOccurrences options.sortOrder finalResults
  let total := finalResults.length
  let offset := jsOrNat options.offset 0
  let limit := jsOrNat options.limit 100
  { items := jsSlice sorted offset (offset + limit)
    total := total
    hasMore := decide (offset + limit < total) }

end OccurrenceSearch

/-! ### Timestamp ordering — the specification the sort is verified
against -/

/-- The integer sort key the comparator reads: `getTime()`, with `0`
standing in for the Invalid-Date sentinel (whose comparator outcome is the
tie `0` in any position). -/
def timeValue (o : OccurrenceObject) : Int :=
  (jsTime o.properties.occurredAt).getD 0

/-- `a` may precede `b` under the requested order: timestamps descending,
or ascending. -/
def timestampOrdered (so : SortOrder) (a b : OccurrenceObject) : Prop :=
  match so with
  | .desc => timeValue b ≤ timeValue a
  | .asc => timeValue a ≤ timeValue b

instance timestampOrderedDec (so : SortOrder) (a b : OccurrenceObject) :
    Decidable (timestampOrdered so a b) :=
  match so with
  | .desc => inferInstanceAs (Decidable (timeValue b ≤ timeValue a))
  | .asc => inferInstanceAs (Decidable (timeValue a ≤ timeValue b))

/-! ### Concrete fixtures used by the witnesses and counterexamples -/

/-- A host-function instance whose date parser accepts nothing. -/
def fnsNone : HostFns :=
  ⟨fun _ => none, fun _ => [], fun s => ⟨"link", s, none⟩⟩

/-- 2024-01-02 03:05:00, epoch value 1000. -/
def dateFix : DateRec := ⟨1000, 2024, 1, 2, 3, 5, 0⟩

/-- Build a plain occurrence record with the given path, title, tags, and
timestamp. -/
def mkPlainOccurrence (path title : String) (tags : List String)
    (occurredAt : JSDate) : OccurrenceObject :=
  { path := path
    title := title
    properties :=
      { occurredAt := occurredAt
        toProcess := false
        participants := []
        intents := []
        location := none
        tags := tags
        extra := [] } }

/-- A record tagged `a`. -/
def occTagA : OccurrenceObject :=
  mkPlainOccurrence "Occurrences/x.md" "x" ["a"] (some ⟨5, 2024, 1, 1, 0, 0, 0⟩)

/-- The same record after an edit that replaced tag `a` with tag `b`. -/
def occTagB : OccurrenceObject :=
  mkPlainOccurrence "Occurrences/x.md" "x" ["b"] (some ⟨5, 2024, 1, 1, 0, 0, 0⟩)

/-- Inserted first, title `b`; same timestamp as `occTieA`. -/
def occTieB : OccurrenceObject :=
  mkPlainOccurrence "Occurrences/1.md" "b" [] (some ⟨7, 2024, 1, 1, 0, 0, 0⟩)

/-- Inserted second, title `a`; same timestamp as `occTieB`. -/
def occTieA : OccurrenceObject :=
  mkPlainOccurrence "Occurrences/2.md" "a" [] (some ⟨7, 2024, 1, 1, 0, 0, 0⟩)

/-- A store holding the two equal-timestamp records, `occTieB` first. -/
def tieStore : StoreState :=
  { items := [(occTieB.path, occTieB), (occTieA.path, occTieA)] }

/-- A store holding a single record. -/
def oneItemStore : StoreState := { items := [(occTieB.path, occTieB)] }

/-- The record whose update collides: stored under its canonical path. -/
def occConflictCur : OccurrenceObject :=
  mkPlainOccurrence "Occurrences/2024-01-02 0305 x.md" "x" [] (some dateFix)

/-- A store holding `occConflictCur`. -/
def conflictStore : StoreState :=
  { items := [(occConflictCur.path, occConflictCur)] }

/-- Year 999: `getFullYear().toString()` renders only three digits. -/
def date999 : DateRec := ⟨500, 999, 1, 2, 3, 5, 0⟩

/-- A record with a later timestamp than the tied pair. -/
def occNine : OccurrenceObject :=
  mkPlainOccurrence "Occurrences/9.md" "c" [] (some ⟨9, 2024, 1, 3, 0, 0, 0⟩)

/-! ## Helper lemmas -/

/-- Deleting a key that has no binding leaves the association list
untouched. -/
theorem deleteAssoc_of_lookup_none {β : Type} (m : List (String × β))
    (key : String) (h : lookupAssoc m key = none) : deleteAssoc m key = m := by
  induction m with
  | nil => rfl
  | cons kv t ih =>
      obtain ⟨k, v⟩ := kv
      by_cases hk : k = key
      · simp [lookupAssoc, hk] at h
      · simp only [lookupAssoc, if_neg hk] at h
        simpa [deleteAssoc, hk] using ih h

/-! ## C1 -/

/-- C1: the tag index is NOT kept consistent by the cited update path.  The
`StoreOperations.updateOccurrence` revision at `storeOperations.ts` lines
28-34 (and likewise the `metadataCache` changed handler at lines 309-313)
removes index entries using the NEW item's tag set, against its own "Remove
old version" comment.  Updating a record whose tags changed from `["a"]` to
`["b"]` leaves its id in the index set of tag `a`, although the stored
record no longer carries tag `a`, so the claimed membership equivalence
fails on this concrete run. -/
theorem c1_update_leaves_stale_tag_entry :
    lookupAssoc (StoreOperations.updateOccurrence
        (StoreOperations.addOccurrence {} occTagA).1 occTagB).1.tagIndex "a" =
      some ["Occurrences/x.md"] ∧
    (lookupAssoc (StoreOperations.updateOccurrence
        (StoreOperations.addOccurrence {} occTagA).1 occTagB).1.items
        "Occurrences/x.md").map (fun o => o.properties.tags) = some ["b"] ∧
    ("a" : String) ∉ (["b"] : List String) := by
  refine ⟨by decide, by decide, by decide⟩

/-! ## C2 -/

/-- C2: `hasRelevantChanges` does NOT return false on a second call with
unchanged input when the occurred-at field is missing (or unparsable): the
stored record and the re-parse both carry the Invalid-Date sentinel, whose
`getTime()` is `NaN`, and the `!==` comparison makes `NaN` unequal to
itself, so the function reports a relevant change although nothing changed.
This holds for every host parser. -/
theorem c2_unchanged_invalid_date_reports_change (fns : HostFns) :
    OccurrenceStore.hasRelevantChanges fns (some {})
      [("Occurrences/y.md",
        OccurrenceStore.processFile fns (some {}) "Occurrences/y.md" "y")]
      "Occurrences/y.md" = true := by
  simp [OccurrenceStore.hasRelevantChanges, OccurrenceStore.processFile,
    lookupAssoc, neqTime, jsNewDate, jsTime]

/-! ## C5 -/

/-- C5: for every raw frontmatter whose occurred-at field is missing or does
not parse to a valid date, `processFile` yields `toProcess = true` and the
Invalid-Date sentinel as the timestamp (and, being a total function, it
never throws on any input). -/
theorem c5_missing_or_unparsable_date (fns : HostFns) (fm : Frontmatter)
    (path basename : String)
    (h : fm.occurrence_occurred_at = none ∨
      ∃ s, fm.occurrence_occurred_at = some s ∧ fns.parseDate s = none) :
    (OccurrenceStore.processFile fns (some fm) path
        basename).properties.toProcess = true ∧
    (OccurrenceStore.processFile fns (some fm) path
        basename).properties.occurredAt = none := by
  have hdate : jsNewDate fns fm.occurrence_occurred_at = none := by
    rcases h with h | ⟨s, hs, hp⟩
    · simp [jsNewDate, h]
    · simp [jsNewDate, hs, hp]
  constructor
  · simp [OccurrenceStore.processFile, OccurrenceStore.computeToProcess, hdate]
  · simp [OccurrenceStore.processFile, hdate]

/-- C5 witness: the empty frontmatter under the rejecting parser. -/
theorem c5_witness :
    (({} : Frontmatter).occurrence_occurred_at = none ∨
      ∃ s, ({} : Frontmatter).occurrence_occurred_at = some s ∧
        fnsNone.parseDate s = none) ∧
    (OccurrenceStore.processFile fnsNone (some {}) "Occurrences/y.md"
        "y").properties.toProcess = true ∧
    (OccurrenceStore.processFile fnsNone (some {}) "Occurrences/y.md"
        "y").properties.occurredAt = none :=
  ⟨Or.inl rfl,
    c5_missing_or_unparsable_date fnsNone {} "Occurrences/y.md" "y"
      (Or.inl rfl)⟩

/-! ## C8 -/

/-- C8 counterexample: `StoreOperations.removeOccurrenceFromPath` (cited at
`storeOperations.ts` lines 39-46) emits `item-removed` even for an id that
is not in the store, contradicting the claim that no such event is
emitted. -/
theorem c8_counterexample :
    lookupAssoc (({} : StoreState)).items "Occurrences/ghost.md" = none ∧
    (StoreOperations.removeOccurrenceFromPath {} "Occurrences/ghost.md").2 =
      [Event.itemRemoved "Occurrences/ghost.md"] ∧
    (StoreOperations.removeOccurrenceFromPath {} "Occurrences/ghost.md").2 ≠
      [] := by
  refine ⟨rfl, rfl, by decide⟩

/-- C8 (amended): removing an absent id leaves the map and the tag index
unchanged in both cited operations; `OccurrenceStore.remove` emits no event
(the condition is only logged), while `StoreOperations.
removeOccurrenceFromPath` still emits `item-removed` with the path. -/
theorem c8_remove_absent_noop (st : StoreState) (path : String)
    (h : lookupAssoc st.items path = none) :
    OccurrenceStore.remove st path = (st, []) ∧
    StoreOperations.removeOccurrenceFromPath st path =
      (st, [Event.itemRemoved path]) := by
  constructor
  · simp [OccurrenceStore.remove, h]
  · simp [StoreOperations.removeOccurrenceFromPath, h,
      deleteAssoc_of_lookup_none st.items path h]

/-- C8 witness: removing from the empty store. -/
theorem c8_witness :
    lookupAssoc ({} : StoreState).items "Occurrences/ghost2.md" = none ∧
    OccurrenceStore.remove {} "Occurrences/ghost2.md" = ({}, []) :=
  ⟨rfl, (c8_remove_absent_noop {} "Occurrences/ghost2.md" rfl).1⟩

/-! ## C9 -/

/-- C9: `isLoaded` is true exactly when no load is in flight and the item
map is non-empty; in particular a completed `load` over a vault with no
managed files leaves `isLoaded` false. -/
theorem c9_isLoaded_iff :
    (∀ st : StoreState,
      OccurrenceStore.isLoaded st = true ↔
        st.isLoading = false ∧ st.items ≠ []) ∧
    (∀ (fns : HostFns) (st : StoreState)
        (vault : List OccurrenceStore.FileRec),
      st.isLoading = false →
      vault.filter (fun f => OccurrenceStore.isRelevantFile f.path) = [] →
      OccurrenceStore.isLoaded (OccurrenceStore.load fns st vault).1 =
        false) := by
  constructor
  · intro st
    simp [OccurrenceStore.isLoaded, List.length_pos]
  · intro fns st vault h1 h2
    simp [OccurrenceStore.load, h1, h2, OccurrenceStore.isLoaded]

/-- C9 witness: an empty vault. -/
theorem c9_witness :
    (({} : StoreState).isLoading = false) ∧
    OccurrenceStore.isLoaded (OccurrenceStore.load fnsNone {} []).1 = false :=
  ⟨rfl, c9_isLoaded_iff.2 fnsNone {} [] rfl rfl⟩

/-! ## C3 -/

/-- C3: when an update's derived canonical path differs from the current one
and already exists in the vault, `update` fails with the already-exists
condition and neither the store nor the vault is touched — in particular
`get(id)` still answers the original record.  `writeBack` and `reparse`
stand for the host calls of the success path, so this holds whatever the
host would have done. -/
theorem c3_update_conflict_is_atomic
    (writeBack : List String → List String) (reparse : Option OccurrenceObject)
    (st : StoreState) (vault : List String) (filePath : String)
    (updates : OccurrenceStore.PartialUpdates) (cur : OccurrenceObject)
    (hcur : lookupAssoc st.items filePath = some cur)
    (hren : OccurrenceStore.renameRequested updates = true)
    (hne : OccurrenceStore.effectiveNewPath cur updates ≠ filePath)
    (hex : vault.contains (OccurrenceStore.effectiveNewPath cur updates) =
      true) :
    OccurrenceStore.update writeBack reparse st vault filePath updates =
      (.error .alreadyExists, st, vault) ∧
    lookupAssoc st.items filePath = some cur := by
  refine ⟨?_, hcur⟩
  simp only [OccurrenceStore.update, hcur]
  rw [if_pos ⟨hren, hne, hex⟩]

/-- C3 witness: renaming `x` to `New` when the canonical file for `New`
already exists. -/
theorem c3_witness :
    lookupAssoc conflictStore.items "Occurrences/2024-01-02 0305 x.md" =
      some occConflictCur ∧
    OccurrenceStore.update id none conflictStore
        ["Occurrences/2024-01-02 0305 New.md"]
        "Occurrences/2024-01-02 0305 x.md" { title := some "New" } =
      (.error .alreadyExists, conflictStore,
        ["Occurrences/2024-01-02 0305 New.md"]) :=
  ⟨by decide,
    (c3_update_conflict_is_atomic id none conflictStore
      ["Occurrences/2024-01-02 0305 New.md"] "Occurrences/2024-01-02 0305 x.md"
      { title := some "New" } occConflictCur (by decide) (by decide)
      (by decide) (by decide)).1⟩

/-! ## Sorting lemmas -/

/-- A comparator that only inspects the timestamps answers `0` on records
with equal (or both invalid) timestamps. -/
theorem compareOccurrences_eq_zero (so : SortOrder) (a b : OccurrenceObject)
    (h : jsTime a.properties.occurredAt = jsTime b.properties.occurredAt) :
    OccurrenceSearch.compareOccurrences so a b = 0 := by
  unfold OccurrenceSearch.compareOccurrences
  cases hb : jsTime b.properties.occurredAt with
  | none => rw [h, hb]; cases so <;> simp
  | some y => rw [h, hb]; cases so <;> simp

/-- Membership in a stable insertion. -/
theorem mem_stableInsert (cmp : OccurrenceObject → OccurrenceObject → Int)
    (x z : OccurrenceObject) (l : List OccurrenceObject) :
    z ∈ OccurrenceSearch.stableInsert cmp x l ↔ z = x ∨ z ∈ l := by
  induction l with
  | nil => simp [OccurrenceSearch.stableInsert]
  | cons y ys ih =>
      by_cases hc : cmp x y ≤ 0
      · simp [OccurrenceSearch.stableInsert, hc]
      · simp [OccurrenceSearch.stableInsert, hc, ih]
        tauto

/-- Stable insertion permutes consing. -/
theorem stableInsert_perm (cmp : OccurrenceObject → OccurrenceObject → Int)
    (x : OccurrenceObject) (l : List OccurrenceObject) :
    (OccurrenceSearch.stableInsert cmp x l).Perm (x :: l) := by
  induction l with
  | nil => exact List.Perm.refl _
  | cons y ys ih =>
      by_cases hc : cmp x y ≤ 0
      · simp only [OccurrenceSearch.stableInsert, if_pos hc]
        exact List.Perm.refl _
      · simp only [OccurrenceSearch.stableInsert, if_neg hc]
        exact (ih.cons y).trans (List.Perm.swap x y ys)

/-- The stable sort is a permutation of its input. -/
theorem stableSort_perm (cmp : OccurrenceObject → OccurrenceObject → Int)
    (l : List OccurrenceObject) :
    (OccurrenceSearch.stableSort cmp l).Perm l := by
  induction l with
  | nil => exact List.Perm.refl _
  | cons x xs ih =>
      exact (stableInsert_perm cmp x _).trans (ih.cons x)

/-- With both timestamps valid, a non-positive comparator outcome is
exactly the requested timestamp order. -/
theorem compareOccurrences_le_zero_iff (so : SortOrder)
    (a b : OccurrenceObject) (ta tb : Int)
    (ha : jsTime a.properties.occurredAt = some ta)
    (hb : jsTime b.properties.occurredAt = some tb) :
    OccurrenceSearch.compareOccurrences so a b ≤ 0 ↔
      timestampOrdered so a b := by
  cases so <;>
    simp [OccurrenceSearch.compareOccurrences, ha, hb, timestampOrdered,
      timeValue]

/-- With both timestamps valid, a positive comparator outcome orders the
pair the other way around. -/
theorem timestampOrdered_of_not_le (so : SortOrder) (a b : OccurrenceObject)
    (ta tb : Int) (ha : jsTime a.properties.occurredAt = some ta)
    (hb : jsTime b.properties.occurredAt = some tb)
    (h : ¬ OccurrenceSearch.compareOccurrences so a b ≤ 0) :
    timestampOrdered so b a := by
  cases so <;>
    simp [OccurrenceSearch.compareOccurrences, ha, hb, timestampOrdered,
      timeValue] at h ⊢ <;>
    omega

/-- The requested timestamp order is transitive (it compares integers). -/
theorem timestampOrdered_trans (so : SortOrder) (a b c : OccurrenceObject)
    (h1 : timestampOrdered so a b) (h2 : timestampOrdered so b c) :
    timestampOrdered so a c := by
  cases so <;> simp only [timestampOrdered] at h1 h2 ⊢ <;> omega

/-- Inserting a valid-timestamp record into a timestamp-ordered list of
valid-timestamp records keeps it timestamp-ordered. -/
theorem pairwise_stableInsert (so : SortOrder) (x : OccurrenceObject)
    (l : List OccurrenceObject)
    (hx : (jsTime x.properties.occurredAt).isSome = true)
    (hl : ∀ a ∈ l, (jsTime a.properties.occurredAt).isSome = true)
    (hp : l.Pairwise (timestampOrdered so)) :
    (OccurrenceSearch.stableInsert (OccurrenceSearch.compareOccurrences so)
      x l).Pairwise (timestampOrdered so) := by
  induction l with
  | nil => simp [OccurrenceSearch.stableInsert, hp]
  | cons y ys ih =>
      obtain ⟨ta, hta⟩ := Option.isSome_iff_exists.mp hx
      obtain ⟨tb, htb⟩ :=
        Option.isSome_iff_exists.mp (hl y (List.mem_cons_self y ys))
      rcases List.pairwise_cons.mp hp with ⟨hyys, hpys⟩
      by_cases hc : OccurrenceSearch.compareOccurrences so x y ≤ 0
      · simp only [OccurrenceSearch.stableInsert, if_pos hc]
        have hxy : timestampOrdered so x y :=
          (compareOccurrences_le_zero_iff so x y ta tb hta htb).mp hc
        refine List.pairwise_cons.mpr ⟨?_, hp⟩
        intro z hz
        rcases List.mem_cons.mp hz with rfl | hz
        · exact hxy
        · exact timestampOrdered_trans so x y z hxy (hyys z hz)
      · simp only [OccurrenceSearch.stableInsert, if_neg hc]
        refine List.pairwise_cons.mpr
          ⟨?_, ih (fun a ha => hl a (List.mem_cons_of_mem y ha)) hpys⟩
        intro z hz
        rcases (mem_stableInsert _ x z ys).mp hz with hzx | hz
        · rw [hzx]
          exact timestampOrdered_of_not_le so x y ta tb hta htb hc
        · exact hyys z hz

/-- When every timestamp in the list is valid, the stable sort orders the
list by timestamp as requested. -/
theorem pairwise_stableSort (so : SortOrder) (l : List OccurrenceObject)
    (hv : ∀ a ∈ l, (jsTime a.properties.occurredAt).isSome = true) :
    (OccurrenceSearch.stableSort (OccurrenceSearch.compareOccurrences so)
      l).Pairwise (timestampOrdered so) := by
  induction l with
  | nil => simp [OccurrenceSearch.stableSort]
  | cons x xs ih =>
      exact pairwise_stableInsert so x _ (hv x (List.mem_cons_self x xs))
        (fun a ha => hv a (List.mem_cons_of_mem x
          ((stableSort_perm _ xs).mem_iff.mp ha)))
        (ih fun a ha => hv a (List.mem_cons_of_mem x ha))

/-- Inserting a record whose timestamp is `t` prepends it to the
`t`-timestamped subsequence: it never crosses an equal-timestamp record. -/
theorem stableInsert_filter_pos (so : SortOrder) (x : OccurrenceObject)
    (l : List OccurrenceObject) (t : Option Int)
    (hx : (jsTime x.properties.occurredAt == t) = true) :
    (OccurrenceSearch.stableInsert (OccurrenceSearch.compareOccurrences so)
        x l).filter (fun o => jsTime o.properties.occurredAt == t) =
      x :: l.filter (fun o => jsTime o.properties.occurredAt == t) := by
  induction l with
  | nil => simp [OccurrenceSearch.stableInsert, hx]
  | cons y ys ih =>
      by_cases hc : OccurrenceSearch.compareOccurrences so x y ≤ 0
      · simp [OccurrenceSearch.stableInsert, hc, List.filter_cons, hx]
      · have hy : (jsTime y.properties.occurredAt == t) = false := by
          cases hyb : (jsTime y.properties.occurredAt == t) with
          | false => rfl
          | true =>
              exfalso
              have hyt : jsTime y.properties.occurredAt = t := by
                simpa using hyb
              have hxt : jsTime x.properties.occurredAt = t := by
                simpa using hx
              exact hc (le_of_eq (compareOccurrences_eq_zero so x y
                (hxt.trans hyt.symm)))
        simp only [OccurrenceSearch.stableInsert, if_neg hc]
        simp [List.filter_cons, hy, ih]

/-- Inserting a record whose timestamp is not `t` leaves the
`t`-timestamped subsequence unchanged. -/
theorem stableInsert_filter_neg (so : SortOrder) (x : OccurrenceObject)
    (l : List OccurrenceObject) (t : Option Int)
    (hx : (jsTime x.properties.occurredAt == t) = false) :
    (OccurrenceSearch.stableInsert (OccurrenceSearch.compareOccurrences so)
        x l).filter (fun o => jsTime o.properties.occurredAt == t) =
      l.filter (fun o => jsTime o.properties.occurredAt == t) := by
  induction l with
  | nil => simp [OccurrenceSearch.stableInsert, hx]
  | cons y ys ih =>
      by_cases hc : OccurrenceSearch.compareOccurrences so x y ≤ 0
      · simp [OccurrenceSearch.stableInsert, hc, List.filter_cons, hx]
      · simp only [OccurrenceSearch.stableInsert, if_neg hc]
        simp [List.filter_cons, ih]

/-- Stability: for every timestamp value, sorting leaves the subsequence of
records carrying exactly that timestamp as it was in the input. -/
theorem stableSort_filter_time (so : SortOrder) (l : List OccurrenceObject)
    (t : Option Int) :
    (OccurrenceSearch.stableSort (OccurrenceSearch.compareOccurrences so)
        l).filter (fun o => jsTime o.properties.occurredAt == t) =
      l.filter (fun o => jsTime o.properties.occurredAt == t) := by
  induction l with
  | nil => rfl
  | cons x xs ih =>
      simp only [OccurrenceSearch.stableSort]
      cases hx : (jsTime x.properties.occurredAt == t) with
      | false =>
          rw [stableInsert_filter_neg so x _ t hx, ih]
          simp [List.filter_cons, hx]
      | true =>
          rw [stableInsert_filter_pos so x _ t hx, ih]
          simp [List.filter_cons, hx]

/-- `stableInsert` grows the length by one. -/
theorem stableInsert_length
    (cmp : OccurrenceObject → OccurrenceObject → Int) (x : OccurrenceObject)
    (l : List OccurrenceObject) :
    (OccurrenceSearch.stableInsert cmp x l).length = l.length + 1 := by
  induction l with
  | nil => rfl
  | cons y ys ih =>
      by_cases hc : cmp x y ≤ 0
      · simp [OccurrenceSearch.stableInsert, hc]
      · simp [OccurrenceSearch.stableInsert, hc, ih]

/-- Sorting preserves length. -/
theorem stableSort_length
    (cmp : OccurrenceObject → OccurrenceObject → Int)
    (l : List OccurrenceObject) :
    (OccurrenceSearch.stableSort cmp l).length = l.length := by
  induction l with
  | nil => rfl
  | cons x xs ih =>
      simp [OccurrenceSearch.stableSort, stableInsert_length, ih]

/-- `sortOccurrences` preserves length. -/
theorem sortOccurrences_length (so : Option SortOrder)
    (l : List OccurrenceObject) :
    (OccurrenceSearch.sortOccurrences so l).length = l.length :=
  stableSort_length _ l

/-! ## C4 -/

/-- C4 counterexample: two records with equal timestamps, inserted with the
lexically larger title first, come back from `search` in insertion order
`["b", "a"]` — not in the title-lexical order `["a", "b"]` the claim's
secondary sort key would produce. -/
theorem c4_counterexample :
    jsTime occTieB.properties.occurredAt =
      jsTime occTieA.properties.occurredAt ∧
    (OccurrenceSearch.search [] tieStore {}).items.map
        OccurrenceObject.title = ["b", "a"] ∧
    (OccurrenceSearch.search [] tieStore {}).items.map
        OccurrenceObject.title ≠ ["a", "b"] := by
  refine ⟨rfl, by decide, by decide⟩

/-- C4 (amended): `search` sorts results by timestamp only, ascending or
descending per `sortOrder` with `desc` as the default.  Concretely: the
sorted list behind `search`'s `items` page is a permutation of the filtered
results; whenever all timestamps are valid it is pairwise ordered by
timestamp in the requested direction; and timestamp ties — also inside
mixed-timestamp results — are not broken by any secondary key: the sort is
stable, so for every timestamp value the records carrying it keep their
candidate (map insertion) order, a deterministic order, hence repeated
identical queries return ties in the same relative order. -/
theorem c4_search_sorts_by_timestamp_stably (so : Option SortOrder)
    (l : List OccurrenceObject) :
    OccurrenceSearch.sortOccurrences none l =
      OccurrenceSearch.sortOccurrences (some .desc) l ∧
    (OccurrenceSearch.sortOccurrences so l).Perm l ∧
    (∀ t : Option Int,
      (OccurrenceSearch.sortOccurrences so l).filter
          (fun o => jsTime o.properties.occurredAt == t) =
        l.filter (fun o => jsTime o.properties.occurredAt == t)) ∧
    ((∀ a ∈ l, (jsTime a.properties.occurredAt).isSome = true) →
      (OccurrenceSearch.sortOccurrences so l).Pairwise
        (timestampOrdered (so.getD .desc))) ∧
    (∀ (resolved : OccurrenceSearch.ResolvedLinks) (st : StoreState)
        (opts : SearchOptions),
      (OccurrenceSearch.search resolved st opts).items =
        ((OccurrenceSearch.sortOccurrences opts.sortOrder
            (OccurrenceSearch.filteredResults resolved st opts)).drop
          (jsOrNat opts.offset 0)).take (jsOrNat opts.limit 100)) := by
  refine ⟨rfl, stableSort_perm _ l,
    fun t => stableSort_filter_time (so.getD .desc) l t,
    fun hv => pairwise_stableSort (so.getD .desc) l hv,
    fun resolved st opts => ?_⟩
  simp [OccurrenceSearch.search, jsSlice, Nat.add_sub_cancel_left]

/-- C4 witness: a mixed-timestamp list (times 7, 9, 7) sorted descending is
timestamp-ordered, and the pairwise-order hypothesis holds concretely. -/
theorem c4_witness :
    (∀ a ∈ [occTieB, occNine, occTieA],
      (jsTime a.properties.occurredAt).isSome = true) ∧
    (OccurrenceSearch.sortOccurrences (some .desc)
        [occTieB, occNine, occTieA]).Pairwise
      (timestampOrdered SortOrder.desc) :=
  ⟨by decide,
    (c4_search_sorts_by_timestamp_stably (some .desc)
      [occTieB, occNine, occTieA]).2.2.2.1 (by decide)⟩

/-! ## C6 -/

/-- If index `1` holds `x`, slicing out one element from offset one yields
exactly `[x]`. -/
theorem drop_one_take_one_of_getElem {α : Type} (l : List α) (x : α)
    (h : l[1]? = some x) : (l.drop 1).take 1 = [x] := by
  match l with
  | [] => simp at h
  | [a] => simp at h
  | a :: b :: t =>
      simp only [List.getElem?_cons_succ, List.getElem?_cons_zero,
        Option.some.injEq] at h
      simp [h]

/-- C6: pagination is applied after filtering and sorting — `total` counts
the filtered results before slicing, `items` is the sorted filtered list
sliced from the (defaulted) offset over the (defaulted) limit, `hasMore`
is `offset + limit < total`, absent limit and offset default to `100` and
`0`, and a `limit: 1, offset: 1` query returns exactly the second element of
the sorted order (descending by default). -/
theorem c6_search_pagination (resolved : OccurrenceSearch.ResolvedLinks)
    (st : StoreState) (opts : SearchOptions) :
    (OccurrenceSearch.search resolved st opts).total =
      (OccurrenceSearch.filteredResults resolved st opts).length ∧
    (OccurrenceSearch.search resolved st opts).items =
      ((OccurrenceSearch.sortOccurrences opts.sortOrder
          (OccurrenceSearch.filteredResults resolved st opts)).drop
        (jsOrNat opts.offset 0)).take (jsOrNat opts.limit 100) ∧
    (OccurrenceSearch.search resolved st opts).hasMore =
      decide (jsOrNat opts.offset 0 + jsOrNat opts.limit 100 <
        (OccurrenceSearch.search resolved st opts).total) ∧
    jsOrNat none 100 = 100 ∧ jsOrNat none 0 = 0 ∧
    (opts.limit = some 1 → opts.offset = some 1 →
      ∀ x, (OccurrenceSearch.sortOccurrences opts.sortOrder
          (OccurrenceSearch.filteredResults resolved st opts))[1]? = some x →
        (OccurrenceSearch.search resolved st opts).items = [x]) := by
  have hitems : (OccurrenceSearch.search resolved st opts).items =
      ((OccurrenceSearch.sortOccurrences opts.sortOrder
          (OccurrenceSearch.filteredResults resolved st opts)).drop
        (jsOrNat opts.offset 0)).take (jsOrNat opts.limit 100) := by
    simp [OccurrenceSearch.search, jsSlice, Nat.add_sub_cancel_left]
  refine ⟨rfl, hitems, rfl, rfl, rfl, ?_⟩
  intro hlim hoff x hx
  rw [hitems, hlim, hoff]
  exact drop_one_take_one_of_getElem _ x hx

/-- C6 witness: on a two-record store (timestamps 9 and 7), the
`limit: 1, offset: 1` query returns the second element of the
descending order. -/
theorem c6_witness :
    (({ limit := some 1, offset := some 1 } : SearchOptions).limit =
      some 1) ∧
    (OccurrenceSearch.sortOccurrences none
        (OccurrenceSearch.filteredResults []
          { items := [(occTieB.path, occTieB),
              ("Occurrences/3.md",
                mkPlainOccurrence "Occurrences/3.md" "c" []
                  (some ⟨9, 2024, 1, 3, 0, 0, 0⟩))] }
          { limit := some 1, offset := some 1 }))[1]? = some occTieB ∧
    (OccurrenceSearch.search []
        { items := [(occTieB.path, occTieB),
            ("Occurrences/3.md",
              mkPlainOccurrence "Occurrences/3.md" "c" []
                (some ⟨9, 2024, 1, 3, 0, 0, 0⟩))] }
        { limit := some 1, offset := some 1 }).items = [occTieB] :=
  ⟨rfl, by decide,
    (c6_search_pagination _ _ _).2.2.2.2.2 rfl rfl occTieB (by decide)⟩

/-! ## C10 -/

/-- C10 counterexample: with a single stored record, a call passing
`limit: 0` together with `offset: 1` returns no items although a match
exists, refuting the claim as universally stated. -/
theorem c10_counterexample :
    (OccurrenceSearch.search [] oneItemStore
        { limit := some 0, offset := some 1 }).total = 1 ∧
    (OccurrenceSearch.search [] oneItemStore
        { limit := some 0, offset := some 1 }).items = [] := by
  refine ⟨by decide, by decide⟩

/-- C10 (amended): an explicit `limit: 0` is falsy and replaced by the
default `100`, and the call returns a non-empty page of at most 100 items
whenever matches exist and the (defaulted) offset lies below the match
count. -/
theorem c10_limit_zero_uses_default (resolved : OccurrenceSearch.ResolvedLinks)
    (st : StoreState) (opts : SearchOptions) (h0 : opts.limit = some 0)
    (hoff : jsOrNat opts.offset 0 <
      (OccurrenceSearch.search resolved st opts).total) :
    jsOrNat opts.limit 100 = 100 ∧
    (OccurrenceSearch.search resolved st opts).items ≠ [] ∧
    (OccurrenceSearch.search resolved st opts).items.length ≤ 100 := by
  have hlim : jsOrNat opts.limit 100 = 100 := by rw [h0]; rfl
  have hitems : (OccurrenceSearch.search resolved st opts).items =
      ((OccurrenceSearch.sortOccurrences opts.sortOrder
          (OccurrenceSearch.filteredResults resolved st opts)).drop
        (jsOrNat opts.offset 0)).take (jsOrNat opts.limit 100) := by
    simp [OccurrenceSearch.search, jsSlice, Nat.add_sub_cancel_left]
  have htot : (OccurrenceSearch.search resolved st opts).total =
      (OccurrenceSearch.filteredResults resolved st opts).length := rfl
  refine ⟨hlim, ?_, ?_⟩
  · rw [hitems, hlim]
    intro hnil
    rcases List.take_eq_nil_iff.mp hnil with h100 | hdrop
    · exact absurd h100 (by decide)
    · have : (OccurrenceSearch.sortOccurrences opts.sortOrder
          (OccurrenceSearch.filteredResults resolved st opts)).length ≤
          jsOrNat opts.offset 0 := List.drop_eq_nil_iff.mp hdrop
      rw [sortOccurrences_length, ← htot] at this
      omega
  · rw [hitems]
    exact le_trans (List.length_take_le _ _) (by rw [hlim])

/-- C10 witness: `limit: 0` on a two-record store still returns items. -/
theorem c10_witness :
    (({ limit := some 0 } : SearchOptions).limit = some 0) ∧
    jsOrNat (({ limit := some 0 } : SearchOptions)).offset 0 <
      (OccurrenceSearch.search [] tieStore { limit := some 0 }).total ∧
    (OccurrenceSearch.search [] tieStore { limit := some 0 }).items ≠ [] :=
  ⟨rfl, by decide,
    (c10_limit_zero_uses_default [] tieStore { limit := some 0 } rfl
      (by decide)).2.1⟩

/-! ## C7: digit-rendering, matching, and trimming lemmas -/

/-- Digit characters are digits. -/
theorem isDigit_digitChar (n : Nat) : (digitChar n).isDigit = true := by
  have h : n % 10 < 10 := Nat.mod_lt _ (by norm_num)
  unfold digitChar
  set m := n % 10 with hm
  interval_cases m <;> decide

/-- Every character of the decimal rendering is a digit. -/
theorem natToCharsAux_digits (fuel n : Nat) :
    ∀ c ∈ natToCharsAux fuel n, c.isDigit = true := by
  induction fuel generalizing n with
  | zero => intro c hc; simp [natToCharsAux] at hc
  | succ fuel ih =>
      intro c hc
      rw [natToCharsAux] at hc
      by_cases h : n < 10
      · rw [if_pos h] at hc
        rcases List.mem_singleton.mp hc with rfl
        exact isDigit_digitChar n
      · rw [if_neg h] at hc
        rcases List.mem_append.mp hc with hc | hc
        · exact ih (n / 10) c hc
        · rcases List.mem_singleton.mp hc with rfl
          exact isDigit_digitChar n

/-- Every character of `natToChars` is a digit. -/
theorem natToChars_digits (n : Nat) : ∀ c ∈ natToChars n, c.isDigit = true :=
  natToCharsAux_digits (n + 1) n

/-- One decimal digit. -/
theorem natToCharsAux_len1 (fuel n : Nat) (hf : 1 ≤ fuel) (h : n < 10) :
    (natToCharsAux fuel n).length = 1 := by
  cases fuel with
  | zero => omega
  | succ fuel => rw [natToCharsAux, if_pos h]; rfl

/-- Two decimal digits. -/
theorem natToCharsAux_len2 (fuel n : Nat) (hf : 2 ≤ fuel) (h1 : 10 ≤ n)
    (h2 : n < 100) : (natToCharsAux fuel n).length = 2 := by
  cases fuel with
  | zero => omega
  | succ fuel =>
      rw [natToCharsAux, if_neg (by omega)]
      rw [List.length_append,
        natToCharsAux_len1 fuel (n / 10) (by omega) (by omega)]
      rfl

/-- Three decimal digits. -/
theorem natToCharsAux_len3 (fuel n : Nat) (hf : 3 ≤ fuel) (h1 : 100 ≤ n)
    (h2 : n < 1000) : (natToCharsAux fuel n).length = 3 := by
  cases fuel with
  | zero => omega
  | succ fuel =>
      rw [natToCharsAux, if_neg (by omega)]
      rw [List.length_append,
        natToCharsAux_len2 fuel (n / 10) (by omega) (by omega) (by omega)]
      rfl

/-- Four decimal digits. -/
theorem natToCharsAux_len4 (fuel n : Nat) (hf : 4 ≤ fuel) (h1 : 1000 ≤ n)
    (h2 : n < 10000) : (natToCharsAux fuel n).length = 4 := by
  cases fuel with
  | zero => omega
  | succ fuel =>
      rw [natToCharsAux, if_neg (by omega)]
      rw [List.length_append,
        natToCharsAux_len3 fuel (n / 10) (by omega) (by omega) (by omega)]
      rfl

/-- A four-digit year renders as exactly four digit characters. -/
theorem natToChars_len4 (n : Nat) (h1 : 1000 ≤ n) (h2 : n ≤ 9999) :
    (natToChars n).length = 4 :=
  natToCharsAux_len4 (n + 1) n (by omega) h1 (by omega)

/-- A field below 100 pads to exactly two characters. -/
theorem pad2_length (n : Nat) (h : n < 100) : (pad2 n).length = 2 := by
  by_cases h10 : n < 10
  · have hl : (natToChars n).length = 1 :=
      natToCharsAux_len1 (n + 1) n (by omega) h10
    rw [pad2, if_pos (by rw [hl]; norm_num)]
    simp [hl]
  · have hl : (natToChars n).length = 2 :=
      natToCharsAux_len2 (n + 1) n (by omega) (by omega) h
    rw [pad2, if_neg (by rw [hl]; norm_num)]
    exact hl

/-- Every character of `pad2` is a digit. -/
theorem pad2_digits (n : Nat) : ∀ c ∈ pad2 n, c.isDigit = true := by
  intro c hc
  rw [pad2] at hc
  by_cases h : (natToChars n).length < 2
  · rw [if_pos h] at hc
    rcases List.mem_cons.mp hc with rfl | hc
    · decide
    · exact natToChars_digits n c hc
  · rw [if_neg h] at hc
    exact natToChars_digits n c hc

/-- Matching `k` digit tokens consumes a `k`-character digit block. -/
theorem matchToks_digits (k : Nat) (l : List Char) (ps : List PatTok)
    (rest : List Char) (hlen : l.length = k)
    (hd : ∀ c ∈ l, c.isDigit = true) :
    matchToks (List.replicate k .digit ++ ps) (l ++ rest) =
      matchToks ps rest := by
  subst hlen
  induction l generalizing ps rest with
  | nil => rfl
  | cons c t ih =>
      have hc : c.isDigit = true := hd c (List.mem_cons_self c t)
      simp only [List.length_cons, List.replicate_succ, List.cons_append]
      rw [matchToks, if_pos hc]
      exact ih ps rest fun x hx => hd x (List.mem_cons_of_mem c hx)

/-- Matching a literal token consumes that character. -/
theorem matchToks_lit (c : Char) (ps : List PatTok) (rest : List Char) :
    matchToks (.lit c :: ps) (c :: rest) = matchToks ps rest := by
  rw [matchToks, if_pos rfl]

/-- The compiled `YYYY-MM-DD HHmm` pattern matches a well-formed prefix and
leaves exactly the separator-plus-title remainder. -/
theorem matchToks_occurrencePattern (y m2 d2 h4 rest : List Char)
    (hy : y.length = 4) (hyd : ∀ c ∈ y, c.isDigit = true)
    (hm : m2.length = 2) (hmd : ∀ c ∈ m2, c.isDigit = true)
    (hd : d2.length = 2) (hdd : ∀ c ∈ d2, c.isDigit = true)
    (hh : h4.length = 4) (hhd : ∀ c ∈ h4, c.isDigit = true) :
    matchToks occurrencePattern
      (y ++ '-' :: m2 ++ '-' :: d2 ++ ' ' :: h4 ++ ' ' :: rest) =
      some (' ' :: rest) := by
  unfold occurrencePattern
  simp only [List.append_assoc, List.cons_append, List.nil_append]
  rw [matchToks_digits 4 y _ _ hy hyd]
  rw [matchToks_lit]
  rw [matchToks_digits 2 m2 _ _ hm hmd]
  rw [matchToks_lit]
  rw [matchToks_digits 2 d2 _ _ hd hdd]
  rw [matchToks_lit]
  rw [← List.append_nil (List.replicate 4 PatTok.digit)]
  rw [matchToks_digits 4 h4 [] _ hh hhd]
  rfl

/-- Deleting the first match when a match sits at the very start returns the
remainder. -/
theorem removeFirstMatch_of_match (ps : List PatTok) (l rest : List Char)
    (h : matchToks ps l = some rest) : removeFirstMatch ps l = rest := by
  cases l with
  | nil => rw [removeFirstMatch, h]
  | cons c cs => rw [removeFirstMatch, h]

/-- A `dropWhile` of unchanged length dropped nothing. -/
theorem dropWhile_eq_self_of_length (p : Char → Bool) (l : List Char)
    (h : (l.dropWhile p).length = l.length) : l.dropWhile p = l := by
  cases l with
  | nil => rfl
  | cons c t =>
      by_cases hp : p c
      · exfalso
        rw [List.dropWhile_cons, if_pos hp] at h
        have := (List.dropWhile_sublist (l := t) p).length_le
        simp at h
        omega
      · rw [List.dropWhile_cons, if_neg hp]

/-- A trim-invariant list starts with no whitespace. -/
theorem dropWhile_of_trim_fix (l : List Char) (h : trimChars l = l) :
    l.dropWhile isJsSpace = l := by
  have hle1 : (l.dropWhile isJsSpace).length ≤ l.length :=
    (List.dropWhile_sublist isJsSpace).length_le
  have hle2 : (trimChars l).length ≤ (l.dropWhile isJsSpace).length := by
    rw [trimChars, List.length_reverse]
    calc ((l.dropWhile isJsSpace).reverse.dropWhile isJsSpace).length
        ≤ (l.dropWhile isJsSpace).reverse.length :=
          (List.dropWhile_sublist isJsSpace).length_le
      _ = (l.dropWhile isJsSpace).length := List.length_reverse _
  have hlen : (l.dropWhile isJsSpace).length = l.length := by
    rw [h] at hle2; omega
  exact dropWhile_eq_self_of_length isJsSpace l hlen

/-- A trim-invariant list also ends with no whitespace. -/
theorem dropWhile_reverse_of_trim_fix (l : List Char) (h : trimChars l = l) :
    l.reverse.dropWhile isJsSpace = l.reverse := by
  have h1 := dropWhile_of_trim_fix l h
  have h2 : trimChars l = (l.reverse.dropWhile isJsSpace).reverse := by
    rw [trimChars, h1]
  rw [h] at h2
  calc l.reverse.dropWhile isJsSpace
      = (l.reverse.dropWhile isJsSpace).reverse.reverse :=
        (List.reverse_reverse _).symm
    _ = l.reverse := by rw [← h2]

/-- Trimming a single leading space off a trim-invariant list returns the
list itself. -/
theorem trimChars_cons_space (l : List Char) (h : trimChars l = l) :
    trimChars (' ' :: l) = l := by
  have h1 := dropWhile_of_trim_fix l h
  have h2 := dropWhile_reverse_of_trim_fix l h
  rw [trimChars, List.dropWhile_cons, if_pos (by decide), h1, h2,
    List.reverse_reverse]

/-! ## C7 -/

/-- C7 counterexample: the round trip is lossy in two independent ways.  A
title with trailing whitespace — a plain space, or equally a no-break space
U+00A0, which `trim()` also strips — comes back shortened; and a year below
1000 renders fewer than four digits, so the compiled `\d\x7b4\x7d` prefix
pattern never matches and the whole prefixed name is returned instead of
the title. -/
theorem c7_counterexample :
    removeDatePrefix (applyDatePrefix "a " dateFix) = "a" ∧
    ("a" : String) ≠ "a " ∧
    removeDatePrefix (applyDatePrefix "a\u00A0" dateFix) = "a" ∧
    ("a" : String) ≠ "a\u00A0" ∧
    removeDatePrefix (applyDatePrefix "x" date999) = "999-01-02 0305 x" ∧
    ("999-01-02 0305 x" : String) ≠ "x" := by
  refine ⟨by decide, by decide, by decide, by decide, by decide, by decide⟩

/-- C7 (amended): for every title without leading or trailing whitespace and
every timestamp with a four-digit year and two-digit-rendered month, day,
hour, and minute fields, `removeDatePrefix` recovers the exact title from
`applyDatePrefix`'s canonical file name. -/
theorem c7_canonical_name_round_trip (title : String) (d : DateRec)
    (hy1 : 1000 ≤ d.year) (hy2 : d.year ≤ 9999) (hmo : d.month < 100)
    (hda : d.day < 100) (hho : d.hour < 100) (hmi : d.minute < 100)
    (ht : trimChars title.data = title.data) :
    removeDatePrefix (applyDatePrefix title d) = title := by
  have hmatch : matchToks occurrencePattern (applyDatePrefix title d).data =
      some (' ' :: title.data) := by
    show matchToks occurrencePattern
      (natToChars d.year ++ '-' :: pad2 d.month ++ '-' :: pad2 d.day ++
        ' ' :: (pad2 d.hour ++ pad2 d.minute) ++ ' ' :: title.data) = _
    refine matchToks_occurrencePattern _ _ _ _ _
      (natToChars_len4 d.year hy1 hy2) (natToChars_digits d.year)
      (pad2_length d.month hmo) (pad2_digits d.month)
      (pad2_length d.day hda) (pad2_digits d.day) ?_ ?_
    · rw [List.length_append, pad2_length d.hour hho,
        pad2_length d.minute hmi]
    · intro c hc
      rcases List.mem_append.mp hc with hc | hc
      · exact pad2_digits d.hour c hc
      · exact pad2_digits d.minute c hc
  show String.mk
    (trimChars (removeFirstMatch occurrencePattern
      (applyDatePrefix title d).data)) = title
  rw [removeFirstMatch_of_match _ _ _ hmatch, trimChars_cons_space _ ht]

/-- C7 witness: a plain title and an ordinary date round-trip exactly. -/
theorem c7_witness :
    trimChars ("Meeting".data) = "Meeting".data ∧
    removeDatePrefix (applyDatePrefix "Meeting" dateFix) = "Meeting" :=
  ⟨by decide,
    c7_canonical_name_round_trip "Meeting" dateFix (by decide) (by decide)
      (by decide) (by decide) (by decide) (by decide) (by decide)⟩

end ObsidianOcc
